import Mathlib

/-!
Verification of the mctpd daemon (Nuvoton-Israel/mctpd).

The repository source under `src/` contains the composition root
`src/main.cpp`.  We embed `main` (and its helper `getBindingPtr`) as a
function from an abstract run environment (outcome of configuration
loading, of `setDbusName`, of `initializeBinding`) to the trace of
externally visible events plus the process exit code.

The Protocol Engine (EID pool, fragmentation/reassembly) is not part of
the provided sources; those components are modelled from the spec, as
noted on each definition.
-/

namespace Mctpd

/-- The binding kinds the composition root can construct
(`SMBusBinding`, `PCIeBinding` in `getBindingPtr`, main.cpp lines 12-37). -/
inductive BindingKind where
  | smbus
  | pcie
deriving DecidableEq, Repr

/-- Outcome of the `dynamic_cast` chain in `getBindingPtr`: the
configuration object is an `SMBusConfiguration`, a `PcieConfiguration`,
or some other subtype of `Configuration`. -/
inductive ConfigKind where
  | smbus
  | pcie
  | other
deriving DecidableEq, Repr

/-- Externally visible events of a run of `main`, in program order. -/
inductive Event where
  | logWarning (msg : String)
  | logError (msg : String)
  | logInfo (msg : String)
  | requestName (name : String)
  | constructBinding (kind : BindingKind)
  | setDbusName (name : String)
  | initializeBinding
  | iocRun
  | bindingReset
  | iocStop
deriving DecidableEq, Repr

/-- Outcome of `getConfiguration(conn, binding, configPath)`
(main.cpp line 69): it throws, returns an empty optional, or returns a
pair of a name and a configuration of some dynamic kind. -/
inductive ConfigOutcome where
  | throws (what : String)
  | noConfig
  | loaded (name : String) (kind : ConfigKind)
deriving DecidableEq, Repr

/-- Abstract environment of one run of `main`: what the external calls
do.  `setDbusNameExc` / `initializeExc` are `some msg` when the
corresponding binding call throws an exception with message `msg`.
A termination signal (SIGINT/SIGTERM) is assumed to arrive while the
event loop runs, which is the only way `ioc.run()` returns. -/
structure RunEnv where
  config : ConfigOutcome
  setDbusNameExc : Option String
  initializeExc : Option String
deriving DecidableEq, Repr

/-- `getBindingPtr` (main.cpp lines 12-37): `dynamic_cast` to
`SMBusConfiguration` then to `PcieConfiguration`; any other kind falls
through to `return nullptr`. -/
def getBindingPtr : ConfigKind → Option BindingKind
  | .smbus => some .smbus
  | .pcie => some .pcie
  | .other => none

/-- The signal handler registered on `signals.async_wait`
(main.cpp lines 57-62): reset the binding shared pointer, then stop the
io_context. -/
def signalHandler : List Event := [Event.bindingReset, Event.iocStop]

/-- `main` (main.cpp lines 39-120), as a trace of events plus the
return value.  Exceptions of `getConfiguration`, `setDbusName` and
`initializeBinding` are the catch blocks at lines 71-78 and 109-116;
the missing-configuration and null-binding checks are lines 80-85 and
97-102.  `ioc.run()` returns only after the signal handler has run. -/
def mainRun (env : RunEnv) : List Event × Int :=
  match env.config with
  | .throws w =>
      ([Event.logWarning ("Exception: " ++ w),
        Event.logError "Invalid configuration; exiting"], -1)
  | .noConfig =>
      ([Event.logError "Could not load any configuration; exiting"], -1)
  | .loaded name kind =>
      let mctpServiceName := "xyz.openbmc_project." ++ name
      let pre : List Event :=
        [Event.requestName mctpServiceName,
         Event.logInfo ("Starting MCTP service: " ++ mctpServiceName)]
      match getBindingPtr kind with
      | none => (pre ++ [Event.logError "Unable to create MCTP binding"], -1)
      | some b =>
          let afterSet := pre ++ [Event.constructBinding b,
                                  Event.setDbusName mctpServiceName]
          match env.setDbusNameExc with
          | some w =>
              (afterSet ++ [Event.logWarning ("Exception: " ++ w),
                Event.logError "Failed to intialize MCTP binding; exiting"], -1)
          | none =>
              let afterInit := afterSet ++ [Event.initializeBinding]
              match env.initializeExc with
              | some w =>
                  (afterInit ++ [Event.logWarning ("Exception: " ++ w),
                    Event.logError "Failed to intialize MCTP binding; exiting"],
                   -1)
              | none =>
                  (afterInit ++ [Event.iocRun] ++ signalHandler, 0)

/-- The trace of a run. -/
def trace (env : RunEnv) : List Event := (mainRun env).1

/-- The exit code of a run. -/
def exitCode (env : RunEnv) : Int := (mainRun env).2

/-- Configuration loading failed: `getConfiguration` threw, or the
returned optional was empty. -/
def configFailed : ConfigOutcome → Prop
  | .throws _ => True
  | .noConfig => True
  | .loaded _ _ => False

/-- If `a` sits at position `ja` of `l` and `b` occurs nowhere at or
before `ja`, then every occurrence of `b` in `l` is strictly preceded
by an occurrence of `a`. -/
theorem exists_earlier {α : Type} (l : List α) (a b : α) (ja : Nat)
    (hja : l[ja]? = some a) (hnb : ∀ j : Nat, j ≤ ja → l[j]? ≠ some b) :
    ∀ i : Nat, l[i]? = some b → ∃ j : Nat, j < i ∧ l[j]? = some a := by
  intro i hi
  refine ⟨ja, ?_, hja⟩
  by_contra h
  push_neg at h
  exact hnb i h hi

/-- C2: for every run environment, whenever the event trace of `main`
stops the event loop (`ioc.stop()` in the signal handler), the binding
object has already been destroyed (`bindingPtr.reset()`) at a strictly
earlier point of the trace; the loop is never stopped while the binding
is alive. -/
theorem binding_destroyed_before_loop_stop (env : RunEnv) (i : Nat)
    (hi : (trace env)[i]? = some Event.iocStop) :
    ∃ j, j < i ∧ (trace env)[j]? = some Event.bindingReset := by
  obtain ⟨cfg, sExc, iExc⟩ := env
  cases cfg with
  | throws w =>
      exact absurd (List.getElem?_mem hi) (by simp [trace, mainRun])
  | noConfig =>
      exact absurd (List.getElem?_mem hi) (by simp [trace, mainRun])
  | loaded n k =>
      cases k with
      | other =>
          exact absurd (List.getElem?_mem hi)
            (by simp [trace, mainRun, getBindingPtr])
      | smbus =>
          cases sExc with
          | some w =>
              exact absurd (List.getElem?_mem hi)
                (by simp [trace, mainRun, getBindingPtr])
          | none =>
              cases iExc with
              | some w =>
                  exact absurd (List.getElem?_mem hi)
                    (by simp [trace, mainRun, getBindingPtr])
              | none =>
                  refine exists_earlier _ _ _ 6 ?_ ?_ i hi
                  · simp [trace, mainRun, getBindingPtr, signalHandler]
                  · intro j hj
                    interval_cases j <;>
                      simp [trace, mainRun, getBindingPtr, signalHandler]
      | pcie =>
          cases sExc with
          | some w =>
              exact absurd (List.getElem?_mem hi)
                (by simp [trace, mainRun, getBindingPtr])
          | none =>
              cases iExc with
              | some w =>
                  exact absurd (List.getElem?_mem hi)
                    (by simp [trace, mainRun, getBindingPtr])
              | none =>
                  refine exists_earlier _ _ _ 6 ?_ ?_ i hi
                  · simp [trace, mainRun, getBindingPtr, signalHandler]
                  · intro j hj
                    interval_cases j <;>
                      simp [trace, mainRun, getBindingPtr, signalHandler]

/-- Witness for C2 at a concrete environment: a successfully
initialized smbus run whose trace stops the loop at index 7, with the
binding reset found strictly earlier. -/
theorem binding_destroyed_before_loop_stop_witness :
    ∃ j, j < 7 ∧
      (trace ⟨.loaded "nvme" .smbus, none, none⟩)[j]? =
        some Event.bindingReset :=
  binding_destroyed_before_loop_stop ⟨.loaded "nvme" .smbus, none, none⟩ 7
    (by simp [trace, mainRun, getBindingPtr, signalHandler])

/-- C3: whenever configuration loading fails (`getConfiguration` throws
or yields no configuration), `main` reports an error and returns a
non-zero exit code, and the trace contains no bus activity: no name
request, no binding construction, no `setDbusName`, no
`initializeBinding`, no event loop run. -/
theorem config_failure_exits_before_bus_activity (env : RunEnv)
    (h : configFailed env.config) :
    exitCode env ≠ 0 ∧
    (∃ m, Event.logError m ∈ trace env) ∧
    (∀ b, Event.constructBinding b ∉ trace env) ∧
    (∀ s, Event.requestName s ∉ trace env) ∧
    (∀ s, Event.setDbusName s ∉ trace env) ∧
    Event.initializeBinding ∉ trace env ∧
    Event.iocRun ∉ trace env := by
  obtain ⟨cfg, sExc, iExc⟩ := env
  cases cfg with
  | throws w =>
      refine ⟨by simp [exitCode, mainRun],
        ⟨"Invalid configuration; exiting", by simp [trace, mainRun]⟩,
        ?_, ?_, ?_, ?_, ?_⟩ <;> simp [trace, mainRun]
  | noConfig =>
      refine ⟨by simp [exitCode, mainRun],
        ⟨"Could not load any configuration; exiting",
          by simp [trace, mainRun]⟩,
        ?_, ?_, ?_, ?_, ?_⟩ <;> simp [trace, mainRun]
  | loaded n k => exact absurd h (by simp [configFailed])

/-- Witness for C3 at a concrete environment where `getConfiguration`
returns an empty optional. -/
theorem config_failure_exits_before_bus_activity_witness :
    exitCode ⟨.noConfig, none, none⟩ ≠ 0 ∧
    (∃ m, Event.logError m ∈ trace ⟨.noConfig, none, none⟩) ∧
    (∀ b, Event.constructBinding b ∉ trace ⟨.noConfig, none, none⟩) ∧
    (∀ s, Event.requestName s ∉ trace ⟨.noConfig, none, none⟩) ∧
    (∀ s, Event.setDbusName s ∉ trace ⟨.noConfig, none, none⟩) ∧
    Event.initializeBinding ∉ trace ⟨.noConfig, none, none⟩ ∧
    Event.iocRun ∉ trace ⟨.noConfig, none, none⟩ :=
  config_failure_exits_before_bus_activity ⟨.noConfig, none, none⟩
    (by simp [configFailed])

/-- C4: when the constructed binding's initialization fails
(`setDbusName` or `initializeBinding` throws), `main` reports the error
and returns a non-zero exit code, and the event loop is never entered. -/
theorem init_failure_exits_nonzero (env : RunEnv) (n : String)
    (k : ConfigKind) (b : BindingKind) (hc : env.config = .loaded n k)
    (hb : getBindingPtr k = some b)
    (hf : env.setDbusNameExc ≠ none ∨ env.initializeExc ≠ none) :
    exitCode env ≠ 0 ∧
    Event.logError "Failed to intialize MCTP binding; exiting" ∈ trace env ∧
    Event.iocRun ∉ trace env := by
  obtain ⟨cfg, sExc, iExc⟩ := env
  have hc' : cfg = ConfigOutcome.loaded n k := hc
  subst hc'
  cases sExc with
  | some w =>
      exact ⟨by simp [exitCode, mainRun, hb],
        by simp [trace, mainRun, hb], by simp [trace, mainRun, hb]⟩
  | none =>
      cases iExc with
      | some w =>
          exact ⟨by simp [exitCode, mainRun, hb],
            by simp [trace, mainRun, hb], by simp [trace, mainRun, hb]⟩
      | none => simp at hf

/-- Witness for C4: a pcie run whose `initializeBinding` throws. -/
theorem init_failure_exits_nonzero_witness :
    exitCode ⟨.loaded "nvme" .pcie, none, some "EIO"⟩ ≠ 0 ∧
    Event.logError "Failed to intialize MCTP binding; exiting" ∈
      trace ⟨.loaded "nvme" .pcie, none, some "EIO"⟩ ∧
    Event.iocRun ∉ trace ⟨.loaded "nvme" .pcie, none, some "EIO"⟩ :=
  init_failure_exits_nonzero ⟨.loaded "nvme" .pcie, none, some "EIO"⟩
    "nvme" .pcie .pcie rfl rfl (Or.inr (by simp))

/-- C5: `main` returns exit code 0 exactly when configuration loading
succeeds, a binding is constructed for the configuration's kind, and
neither `setDbusName` nor `initializeBinding` throws (the run then ends
by signal-driven shutdown); every other run returns a non-zero code. -/
theorem exit_code_spec (env : RunEnv) :
    exitCode env = 0 ↔
      ∃ n k b, env.config = .loaded n k ∧ getBindingPtr k = some b ∧
        env.setDbusNameExc = none ∧ env.initializeExc = none := by
  obtain ⟨cfg, sExc, iExc⟩ := env
  cases cfg with
  | throws w => simp [exitCode, mainRun]
  | noConfig => simp [exitCode, mainRun]
  | loaded n k =>
      cases k with
      | smbus =>
          cases sExc with
          | some w => cases iExc <;> simp [exitCode, mainRun, getBindingPtr]
          | none =>
              cases iExc with
              | some w => simp [exitCode, mainRun, getBindingPtr]
              | none =>
                  exact ⟨fun _ => ⟨n, .smbus, .smbus, rfl, rfl, rfl, rfl⟩,
                    fun _ => rfl⟩
      | pcie =>
          cases sExc with
          | some w => cases iExc <;> simp [exitCode, mainRun, getBindingPtr]
          | none =>
              cases iExc with
              | some w => simp [exitCode, mainRun, getBindingPtr]
              | none =>
                  exact ⟨fun _ => ⟨n, .pcie, .pcie, rfl, rfl, rfl, rfl⟩,
                    fun _ => rfl⟩
      | other =>
          cases sExc <;> cases iExc <;>
            simp [exitCode, mainRun, getBindingPtr]

/-- Witness for C5 at a concrete successful environment. -/
theorem exit_code_spec_witness :
    exitCode ⟨.loaded "nvme" .smbus, none, none⟩ = 0 ↔
      ∃ n k b,
        (RunEnv.mk (.loaded "nvme" .smbus) none none).config =
          .loaded n k ∧
        getBindingPtr k = some b ∧
        (RunEnv.mk (.loaded "nvme" .smbus) none none).setDbusNameExc =
          none ∧
        (RunEnv.mk (.loaded "nvme" .smbus) none none).initializeExc =
          none :=
  exit_code_spec ⟨.loaded "nvme" .smbus, none, none⟩

/-- C6: `getBindingPtr` yields a binding exactly for the SMBus and PCIe
configuration kinds (the corresponding binding each); for every other
kind it yields none, and `main` then reports "Unable to create MCTP
binding" and exits non-zero rather than continuing silently. -/
theorem unrecognized_kind_explicit_error :
    (∀ k : ConfigKind, k ≠ .smbus → k ≠ .pcie → getBindingPtr k = none) ∧
    getBindingPtr .smbus = some .smbus ∧
    getBindingPtr .pcie = some .pcie ∧
    (∀ (env : RunEnv) (n : String) (k : ConfigKind),
      env.config = .loaded n k → getBindingPtr k = none →
      exitCode env ≠ 0 ∧
        Event.logError "Unable to create MCTP binding" ∈ trace env) ∧
    (∀ (env : RunEnv) (n : String) (k : ConfigKind) (b : BindingKind),
      env.config = .loaded n k → getBindingPtr k = some b →
      Event.constructBinding b ∈ trace env) := by
  refine ⟨?_, rfl, rfl, ?_, ?_⟩
  · intro k h1 h2
    cases k with
    | smbus => exact absurd rfl h1
    | pcie => exact absurd rfl h2
    | other => rfl
  · intro env n k hc hk
    obtain ⟨cfg, sExc, iExc⟩ := env
    have hc' : cfg = ConfigOutcome.loaded n k := hc
    subst hc'
    exact ⟨by simp [exitCode, mainRun, hk], by simp [trace, mainRun, hk]⟩
  · intro env n k b hc hb
    obtain ⟨cfg, sExc, iExc⟩ := env
    have hc' : cfg = ConfigOutcome.loaded n k := hc
    subst hc'
    cases sExc with
    | some w => simp [trace, mainRun, hb]
    | none => cases iExc <;> simp [trace, mainRun, hb]

/-- Witness for C6: the unrecognized-kind branch at a concrete
environment, and the constructed binding for a concrete smbus run. -/
theorem unrecognized_kind_explicit_error_witness :
    (exitCode ⟨.loaded "x" .other, none, none⟩ ≠ 0 ∧
      Event.logError "Unable to create MCTP binding" ∈
        trace ⟨.loaded "x" .other, none, none⟩) ∧
    Event.constructBinding .smbus ∈
      trace ⟨.loaded "x" .smbus, none, none⟩ :=
  ⟨unrecognized_kind_explicit_error.2.2.2.1
      ⟨.loaded "x" .other, none, none⟩ "x" .other rfl rfl,
    unrecognized_kind_explicit_error.2.2.2.2
      ⟨.loaded "x" .smbus, none, none⟩ "x" .smbus .smbus rfl rfl⟩

/-- C7: once a binding is constructed, `main` passes the service name
"xyz.openbmc_project." ++ (configuration name) to the binding via
`setDbusName`, and every invocation of `initializeBinding` in the trace
is strictly preceded by that `setDbusName` call. -/
theorem service_identity_supplied (env : RunEnv) (n : String)
    (k : ConfigKind) (b : BindingKind) (hc : env.config = .loaded n k)
    (hb : getBindingPtr k = some b) :
    Event.setDbusName ("xyz.openbmc_project." ++ n) ∈ trace env ∧
    ∀ i : Nat, (trace env)[i]? = some Event.initializeBinding →
      ∃ j : Nat, j < i ∧
        (trace env)[j]? =
          some (Event.setDbusName ("xyz.openbmc_project." ++ n)) := by
  obtain ⟨cfg, sExc, iExc⟩ := env
  have hc' : cfg = ConfigOutcome.loaded n k := hc
  subst hc'
  cases sExc with
  | some w =>
      refine ⟨by simp [trace, mainRun, hb], ?_⟩
      intro i hi
      exact absurd (List.getElem?_mem hi) (by simp [trace, mainRun, hb])
  | none =>
      cases iExc with
      | some w =>
          refine ⟨by simp [trace, mainRun, hb], ?_⟩
          refine exists_earlier _ _ _ 3 ?_ ?_
          · simp [trace, mainRun, hb]
          · intro j hj
            interval_cases j <;> simp [trace, mainRun, hb]
      | none =>
          refine ⟨by simp [trace, mainRun, hb], ?_⟩
          refine exists_earlier _ _ _ 3 ?_ ?_
          · simp [trace, mainRun, hb]
          · intro j hj
            interval_cases j <;> simp [trace, mainRun, hb]

/-- Witness for C7 at a concrete pcie environment, reading the
precedence conclusion off at the trace position of
`initializeBinding`. -/
theorem service_identity_supplied_witness :
    Event.setDbusName "xyz.openbmc_project.nvme" ∈
      trace ⟨.loaded "nvme" .pcie, none, none⟩ ∧
    ∀ i : Nat,
      (trace ⟨.loaded "nvme" .pcie, none, none⟩)[i]? =
        some Event.initializeBinding →
      ∃ j : Nat, j < i ∧
        (trace ⟨.loaded "nvme" .pcie, none, none⟩)[j]? =
          some (Event.setDbusName "xyz.openbmc_project.nvme") :=
  service_identity_supplied ⟨.loaded "nvme" .pcie, none, none⟩
    "nvme" .pcie .pcie rfl rfl

/-- C10: in every run whose configuration loads, the D-Bus name
"xyz.openbmc_project." ++ (configuration name) is requested, and that
request strictly precedes every binding construction and every
`initializeBinding` in the trace; so any later failure exits non-zero
only after the name was already requested. -/
theorem request_name_before_binding (env : RunEnv) (n : String)
    (k : ConfigKind) (hc : env.config = .loaded n k) :
    Event.requestName ("xyz.openbmc_project." ++ n) ∈ trace env ∧
    (∀ (i : Nat) (b : BindingKind),
      (trace env)[i]? = some (Event.constructBinding b) →
      ∃ j : Nat, j < i ∧
        (trace env)[j]? =
          some (Event.requestName ("xyz.openbmc_project." ++ n))) ∧
    (∀ i : Nat, (trace env)[i]? = some Event.initializeBinding →
      ∃ j : Nat, j < i ∧
        (trace env)[j]? =
          some (Event.requestName ("xyz.openbmc_project." ++ n))) := by
  obtain ⟨cfg, sExc, iExc⟩ := env
  have hc' : cfg = ConfigOutcome.loaded n k := hc
  subst hc'
  have h0 : (trace ⟨ConfigOutcome.loaded n k, sExc, iExc⟩)[0]? =
      some (Event.requestName ("xyz.openbmc_project." ++ n)) := by
    cases k <;> cases sExc <;> cases iExc <;>
      simp [trace, mainRun, getBindingPtr]
  refine ⟨List.getElem?_mem h0, ?_, ?_⟩
  · intro i b hi
    refine exists_earlier _ _ _ 0 h0 ?_ i hi
    intro j hj
    interval_cases j
    rw [h0]
    simp
  · intro i hi
    refine exists_earlier _ _ _ 0 h0 ?_ i hi
    intro j hj
    interval_cases j
    rw [h0]
    simp

/-- Witness for C10 at a concrete smbus environment. -/
theorem request_name_before_binding_witness :
    Event.requestName "xyz.openbmc_project.nvme" ∈
      trace ⟨.loaded "nvme" .smbus, none, none⟩ ∧
    (∀ (i : Nat) (b : BindingKind),
      (trace ⟨.loaded "nvme" .smbus, none, none⟩)[i]? =
        some (Event.constructBinding b) →
      ∃ j : Nat, j < i ∧
        (trace ⟨.loaded "nvme" .smbus, none, none⟩)[j]? =
          some (Event.requestName "xyz.openbmc_project.nvme")) ∧
    (∀ i : Nat,
      (trace ⟨.loaded "nvme" .smbus, none, none⟩)[i]? =
        some Event.initializeBinding →
      ∃ j : Nat, j < i ∧
        (trace ⟨.loaded "nvme" .smbus, none, none⟩)[j]? =
          some (Event.requestName "xyz.openbmc_project.nvme")) :=
  request_name_before_binding ⟨.loaded "nvme" .smbus, none, none⟩
    "nvme" .smbus rfl

/-!
## Protocol Engine: fragmentation and reassembly

The Protocol Engine is not part of the provided sources (only the
composition root `main.cpp` is); the following definitions are modelled
from the spec, §3 (Packet, Message, Reassembly Context), §4.1
(`submit_outbound`, `on_packet_received`) and §6 (wire format).
-/

/-- Modelled from the spec: the MCTP wire unit (§3, §6): header flags
(start-of-message, end-of-message), packet sequence number (cycles
mod 4), message tag, and a bounded payload chunk of bytes. -/
structure Packet where
  som : Bool
  eom : Bool
  seq : Nat
  tag : Nat
  payload : List Nat
deriving DecidableEq, Repr

/-- Modelled from the spec: splitting a payload into successive chunks
of at most `mtu` bytes (the fragmentation step of `submit_outbound`,
§4.1). -/
def chunkPayload (mtu : Nat) (l : List Nat) : List (List Nat) :=
  if hl : l = [] then []
  else if hm : mtu = 0 then []
  else l.take mtu :: chunkPayload mtu (l.drop mtu)
termination_by l.length
decreasing_by
  have h0 : 0 < l.length := List.length_pos.mpr hl
  simp only [List.length_drop]
  omega

/-- Modelled from the spec: the packet stream of one message (§3):
start-of-message flag on the first packet only, end-of-message on the
last only, sequence numbers cycling modulo 4 from `s`, all packets
carrying the message tag. -/
def mkPackets (tag : Nat) : Nat → Bool → List (List Nat) → List Packet
  | _, _, [] => []
  | s, first, [c] => [⟨first, true, s % 4, tag, c⟩]
  | s, first, c :: c' :: cs =>
      ⟨first, false, s % 4, tag, c⟩ :: mkPackets tag (s + 1) false (c' :: cs)

/-- Modelled from the spec: the fragmentation stage of `submit_outbound`
(§4.1): the sequence of packets, each of payload length ≤ MTU, handed
one at a time to the Binding's transmit operation.  An empty message is
a single empty start+end packet. -/
def submit_outbound (mtu tag : Nat) (payload : List Nat) : List Packet :=
  if payload = [] then mkPackets tag 0 true [[]]
  else mkPackets tag 0 true (chunkPayload mtu payload)

/-- Modelled from the spec: the per-(peer, tag) Reassembly Context (§3):
partial message bytes and the expected next sequence number. -/
structure ReassemblyContext where
  buf : List Nat
  expSeq : Nat
  tag : Nat
deriving DecidableEq, Repr

/-- Modelled from the spec: `on_packet_received` (§4.1, §3) for one
peer: a start-of-message packet opens a fresh context (evicting any
prior one); a continuation must carry the context's tag and the
expected sequence number (mod 4), otherwise the in-progress context is
discarded and nothing is delivered; on end-of-message the completed
message is delivered upward and the context cleared. -/
def on_packet_received (st : Option ReassemblyContext) (p : Packet) :
    Option ReassemblyContext × Option (List Nat) :=
  if p.som then
    if p.eom then (none, some p.payload)
    else (some ⟨p.payload, (p.seq + 1) % 4, p.tag⟩, none)
  else
    match st with
    | none => (none, none)
    | some c =>
        if p.tag = c.tag ∧ p.seq = c.expSeq then
          if p.eom then (none, some (c.buf ++ p.payload))
          else (some ⟨c.buf ++ p.payload, (p.seq + 1) % 4, c.tag⟩, none)
        else (none, none)

/-- Feeding a packet list through `on_packet_received` in order,
collecting every delivered message. -/
def runReassembly (st : Option ReassemblyContext) :
    List Packet → Option ReassemblyContext × List (List Nat)
  | [] => (st, [])
  | p :: ps =>
      let r := on_packet_received st p
      let rest := runReassembly r.1 ps
      (rest.1, r.2.toList ++ rest.2)

/-- One continuation step of `on_packet_received`: a non-start,
non-final packet carrying the context's tag and expected sequence
number appends its payload and advances the expected sequence. -/
theorem on_packet_continue (c : ReassemblyContext) (p : Packet)
    (hsom : p.som = false) (htag : p.tag = c.tag) (hseq : p.seq = c.expSeq)
    (heom : p.eom = false) :
    on_packet_received (some c) p =
      (some ⟨c.buf ++ p.payload, (p.seq + 1) % 4, c.tag⟩, none) := by
  simp [on_packet_received, hsom, htag, hseq, heom]

/-- The final step of `on_packet_received`: a matching end-of-message
packet delivers the assembled message and clears the context. -/
theorem on_packet_final (c : ReassemblyContext) (p : Packet)
    (hsom : p.som = false) (htag : p.tag = c.tag) (hseq : p.seq = c.expSeq)
    (heom : p.eom = true) :
    on_packet_received (some c) p = (none, some (c.buf ++ p.payload)) := by
  simp [on_packet_received, hsom, htag, hseq, heom]

/-- Chunking splits without loss: the chunks of a payload concatenate
back to the payload (for a positive MTU). -/
theorem chunkPayload_flatten (mtu : Nat) (hm : mtu ≠ 0) :
    ∀ l : List Nat, (chunkPayload mtu l).flatten = l := by
  have key : ∀ (n : Nat) (l : List Nat), l.length ≤ n →
      (chunkPayload mtu l).flatten = l := by
    intro n
    induction n with
    | zero =>
        intro l hl
        have hnil : l = [] := by cases l <;> simp_all
        subst hnil
        rw [chunkPayload]
        simp
    | succ n ih =>
        intro l hl
        cases l with
        | nil => rw [chunkPayload]; simp
        | cons a as =>
            rw [chunkPayload, dif_neg (by simp : ¬(a :: as = [])), dif_neg hm]
            rw [List.flatten_cons]
            rw [ih ((a :: as).drop mtu) ?_]
            · exact List.take_append_drop mtu (a :: as)
            · simp only [List.length_drop, List.length_cons] at hl ⊢
              omega
  intro l
  exact key l.length l le_rfl

/-- A nonempty payload has a nonempty chunk list. -/
theorem chunkPayload_ne_nil (mtu : Nat) (l : List Nat) (hl : l ≠ [])
    (hm : mtu ≠ 0) : chunkPayload mtu l ≠ [] := by
  rw [chunkPayload]
  simp [hl, hm]

/-- Processing the continuation packets of a message from a matching
open context appends the remaining chunks and delivers exactly the
assembled message. -/
theorem runReassembly_continue (tag : Nat) :
    ∀ (cs : List (List Nat)) (buf : List Nat) (s : Nat), cs ≠ [] →
      runReassembly (some ⟨buf, s % 4, tag⟩) (mkPackets tag s false cs) =
        (none, [buf ++ cs.flatten]) := by
  intro cs
  induction cs with
  | nil => intro buf s h; exact absurd rfl h
  | cons c cs ih =>
      intro buf s _
      cases cs with
      | nil => simp [mkPackets, runReassembly, on_packet_received]
      | cons c' cs' =>
          have hmod : (s % 4 + 1) % 4 = (s + 1) % 4 := by omega
          have h := ih (buf ++ c) (s + 1) (by simp)
          simp only [mkPackets, runReassembly]
          rw [on_packet_continue ⟨buf, s % 4, tag⟩
            ⟨false, false, s % 4, tag, c⟩ rfl rfl rfl rfl]
          simp only [hmod]
          rw [h]
          simp [List.append_assoc]

/-- Reassembling the full packet stream of one message from an empty
context delivers exactly the concatenation of its chunks. -/
theorem runReassembly_mkPackets (tag : Nat) (cs : List (List Nat))
    (hcs : cs ≠ []) :
    runReassembly none (mkPackets tag 0 true cs) = (none, [cs.flatten]) := by
  cases cs with
  | nil => exact absurd rfl hcs
  | cons c cs' =>
      cases cs' with
      | nil => simp [mkPackets, runReassembly, on_packet_received]
      | cons c' cs'' =>
          have h := runReassembly_continue tag (c' :: cs'') c 1 (by simp)
          simp only [mkPackets, runReassembly, on_packet_received]
          simp only [if_pos rfl, if_neg (by simp : ¬(false = true))]
          simp only [Nat.zero_mod, Nat.zero_add, Nat.one_mod, if_true] at *
          rw [h]
          simp

/-- C1: for every payload of length L with L ≤ N·MTU for some N ≥ 1,
fragmenting it into packets of at most MTU bytes (the fragmentation
stage of `submit_outbound`) and feeding the packets in order through
`on_packet_received` delivers exactly the original byte sequence, once,
with no context left behind. -/
theorem fragment_reassemble_roundtrip (mtu N tag : Nat)
    (payload : List Nat) (hN : 1 ≤ N) (hL : payload.length ≤ N * mtu) :
    runReassembly none (submit_outbound mtu tag payload) =
      (none, [payload]) := by
  by_cases hp : payload = []
  · subst hp
    simp [submit_outbound, mkPackets, runReassembly, on_packet_received]
  · have hm : mtu ≠ 0 := by
      intro h0
      subst h0
      simp only [Nat.mul_zero, Nat.le_zero] at hL
      exact hp (List.eq_nil_of_length_eq_zero hL)
    rw [submit_outbound, if_neg hp]
    rw [runReassembly_mkPackets tag _ (chunkPayload_ne_nil mtu payload hp hm)]
    rw [chunkPayload_flatten mtu hm payload]

/-- Witness for C1: a 3-byte payload, MTU 2, N = 2 round-trips. -/
theorem fragment_reassemble_roundtrip_witness :
    1 ≤ 2 ∧ ([10, 20, 30] : List Nat).length ≤ 2 * 2 ∧
    runReassembly none (submit_outbound 2 1 [10, 20, 30]) =
      (none, [[10, 20, 30]]) :=
  ⟨by decide, by decide,
    fragment_reassemble_roundtrip 2 2 1 [10, 20, 30] (by decide) (by decide)⟩

/-- C8: a continuation packet whose sequence number differs from the
context's expected next sequence number (a gap or a duplicate mod 4)
makes `on_packet_received` discard the in-progress Reassembly Context
and deliver nothing. -/
theorem reassembly_discards_on_bad_seq (c : ReassemblyContext)
    (p : Packet) (hsom : p.som = false) (htag : p.tag = c.tag)
    (hseq : p.seq ≠ c.expSeq) :
    on_packet_received (some c) p = (none, none) := by
  simp [on_packet_received, hsom, htag, hseq]

/-- Witness for C8: a duplicate/gap continuation packet (sequence 1
against expected 2) is dropped together with its context. -/
theorem reassembly_discards_on_bad_seq_witness :
    on_packet_received (some ⟨[1, 2], 2, 3⟩) ⟨false, false, 1, 3, [9]⟩ =
      (none, none) :=
  reassembly_discards_on_bad_seq ⟨[1, 2], 2, 3⟩ ⟨false, false, 1, 3, [9]⟩
    rfl rfl (by decide)

/-!
## Protocol Engine: EID pool management

Modelled from the spec, §3 (EID: 8-bit space, two reserved values, the
254-value assignable pool 1..254), §4.1 (`allocate_eid`,
`release_eid`) and §8 (pool-exhaustion scenario).
-/

/-- Modelled from the spec: failure of EID allocation (§4.1, §7). -/
inductive EidError where
  | PoolExhausted
deriving DecidableEq, Repr

/-- Modelled from the spec: the Engine's EID routing state, one live
(EID, Physical Address) entry per assigned EID (§3, §4.1). -/
structure EidState where
  table : List (Nat × Nat)
deriving DecidableEq, Repr

/-- The initial state: no EID assigned. -/
def emptyEidState : EidState := ⟨[]⟩

/-- The EIDs currently in use. -/
def usedEids (st : EidState) : List Nat := st.table.map Prod.fst

/-- Modelled from the spec: scan for the lowest EID not in `used`,
starting at `e`, bounded by `fuel` candidates (the assignable pool is
finite, §3). -/
def lowestFreeFrom (used : List Nat) : Nat → Nat → Option Nat
  | 0, _ => none
  | fuel + 1, e =>
      if e ∈ used then lowestFreeFrom used fuel (e + 1) else some e

/-- Modelled from the spec: the lowest free EID of the assignable pool
1..254 (0 is the null EID, 255 broadcast, §3). -/
def lowestFree (used : List Nat) : Option Nat := lowestFreeFrom used 254 1

/-- Modelled from the spec: `allocate_eid` assigns the lowest free EID
of the pool to the physical address; `PoolExhausted` when none
remain (§4.1). -/
def allocate_eid (st : EidState) (pa : Nat) :
    Except EidError (Nat × EidState) :=
  match lowestFree (usedEids st) with
  | none => .error .PoolExhausted
  | some e => .ok (e, ⟨(e, pa) :: st.table⟩)

/-- Modelled from the spec: `release_eid` returns an EID to the pool;
idempotent (§4.1). -/
def release_eid (st : EidState) (e : Nat) : EidState :=
  ⟨st.table.filter (fun q => q.1 != e)⟩

/-- Repeated allocation (with varying physical addresses), as in the
pool-exhaustion scenario of §8. -/
def allocIter : Nat → EidState → Except EidError EidState
  | 0, st => .ok st
  | n + 1, st =>
      match allocate_eid st n with
      | .error err => .error err
      | .ok (_, st') => allocIter n st'

/-- Soundness of the scan: a returned EID is free and within the
scanned window. -/
theorem lowestFreeFrom_some (used : List Nat) :
    ∀ fuel start e : Nat, lowestFreeFrom used fuel start = some e →
      e ∉ used ∧ start ≤ e ∧ e < start + fuel := by
  intro fuel
  induction fuel with
  | zero => intro start e h; simp [lowestFreeFrom] at h
  | succ f ih =>
      intro start e h
      rw [lowestFreeFrom] at h
      split at h
      · obtain ⟨h1, h2, h3⟩ := ih (start + 1) e h
        exact ⟨h1, by omega, by omega⟩
      next hfree =>
        obtain rfl : start = e := by injection h
        exact ⟨hfree, le_rfl, by omega⟩

/-- Minimality of the scan: every candidate below the returned EID is
in use. -/
theorem lowestFreeFrom_min (used : List Nat) :
    ∀ fuel start e : Nat, lowestFreeFrom used fuel start = some e →
      ∀ j : Nat, start ≤ j → j < e → j ∈ used := by
  intro fuel
  induction fuel with
  | zero => intro start e h; simp [lowestFreeFrom] at h
  | succ f ih =>
      intro start e h j hj1 hj2
      rw [lowestFreeFrom] at h
      split at h
      next hmem =>
        rcases Nat.eq_or_lt_of_le hj1 with rfl | hlt
        · exact hmem
        · exact ih (start + 1) e h j hlt hj2
      next =>
        obtain rfl : start = e := by injection h
        omega

/-- Completeness of the scan: if some candidate in the window is free,
the scan returns one (the least, hence at most the given one). -/
theorem lowestFreeFrom_complete (used : List Nat) :
    ∀ fuel start m : Nat, m ∉ used → start ≤ m → m < start + fuel →
      ∃ e : Nat, lowestFreeFrom used fuel start = some e ∧ e ≤ m := by
  intro fuel
  induction fuel with
  | zero => intro start m _ _ h; omega
  | succ f ih =>
      intro start m hm h1 h2
      rw [lowestFreeFrom]
      split
      next hmem =>
        have hne : start ≠ m := fun h => hm (h ▸ hmem)
        obtain ⟨e, he, hle⟩ := ih (start + 1) m hm (by omega) (by omega)
        exact ⟨e, he, hle⟩
      next => exact ⟨start, rfl, h1⟩

/-- Exhaustion of the scan: if every candidate in the window is in use,
the scan fails. -/
theorem lowestFreeFrom_none (used : List Nat) :
    ∀ fuel start : Nat, (∀ j : Nat, start ≤ j → j < start + fuel → j ∈ used) →
      lowestFreeFrom used fuel start = none := by
  intro fuel
  induction fuel with
  | zero => intro start _; rw [lowestFreeFrom]
  | succ f ih =>
      intro start hall
      rw [lowestFreeFrom]
      rw [if_pos (hall start le_rfl (by omega))]
      exact ih (start + 1) fun j hj1 hj2 => hall j (by omega) (by omega)

/-- A successful `allocate_eid` returns the lowest assignable free EID
and prepends it to the table. -/
theorem allocate_eid_ok (st : EidState) (pa e : Nat) (st' : EidState)
    (h : allocate_eid st pa = .ok (e, st')) :
    e ∉ usedEids st ∧ 1 ≤ e ∧ e ≤ 254 ∧
    (∀ e' : Nat, 1 ≤ e' → e' ≤ 254 → e' ∉ usedEids st → e ≤ e') ∧
    st' = ⟨(e, pa) :: st.table⟩ := by
  unfold allocate_eid at h
  cases hfree : lowestFree (usedEids st) with
  | none => rw [hfree] at h; exact absurd h (by simp)
  | some e0 =>
      rw [hfree] at h
      simp only [Except.ok.injEq, Prod.mk.injEq] at h
      obtain ⟨rfl, rfl⟩ := h
      obtain ⟨h1, h2, h3⟩ := lowestFreeFrom_some (usedEids st) 254 1 e0 hfree
      refine ⟨h1, h2, by omega, ?_, rfl⟩
      intro e' he1 he2 hfree'
      by_contra hlt
      push_neg at hlt
      exact hfree' (lowestFreeFrom_min (usedEids st) 254 1 e0 hfree e' he1 hlt)

/-- Allocating `k` more EIDs from a state whose used EIDs are exactly
1..m succeeds while m + k ≤ 254, and the used EIDs become exactly
1..(m+k). -/
theorem allocIter_progress :
    ∀ k m : Nat, m + k ≤ 254 →
      ∀ st : EidState, (∀ e : Nat, e ∈ usedEids st ↔ 1 ≤ e ∧ e ≤ m) →
      ∃ st' : EidState, allocIter k st = .ok st' ∧
        ∀ e : Nat, e ∈ usedEids st' ↔ 1 ≤ e ∧ e ≤ m + k := by
  intro k
  induction k with
  | zero =>
      intro m _ st hst
      exact ⟨st, rfl, by simpa using hst⟩
  | succ kk ih =>
      intro m hm st hst
      have hfreem : (m + 1) ∉ usedEids st := by
        intro hmem
        have := (hst (m + 1)).mp hmem
        omega
      obtain ⟨e, he, hle⟩ := lowestFreeFrom_complete (usedEids st) 254 1
        (m + 1) hfreem (by omega) (by omega)
      have heq : e = m + 1 := by
        by_contra hne
        obtain ⟨h1, h2, _⟩ := lowestFreeFrom_some (usedEids st) 254 1 e he
        exact h1 ((hst e).mpr ⟨h2, by omega⟩)
      subst heq
      have halloc : allocate_eid st kk =
          .ok (m + 1, ⟨(m + 1, kk) :: st.table⟩) := by
        unfold allocate_eid lowestFree
        rw [he]
      have hst1 : ∀ e : Nat,
          e ∈ usedEids ⟨(m + 1, kk) :: st.table⟩ ↔ 1 ≤ e ∧ e ≤ m + 1 := by
        intro e
        have hcons : e ∈ usedEids ⟨(m + 1, kk) :: st.table⟩ ↔
            (e = m + 1 ∨ e ∈ usedEids st) := by
          simp [usedEids]
        rw [hcons, hst e]
        constructor
        · rintro (rfl | ⟨a, b⟩) <;> omega
        · rintro ⟨a, b⟩
          by_cases hcase : e = m + 1
          · exact Or.inl hcase
          · exact Or.inr ⟨a, by omega⟩
      obtain ⟨st', h1, h2⟩ := ih (m + 1) (by omega)
        ⟨(m + 1, kk) :: st.table⟩ hst1
      refine ⟨st', ?_, ?_⟩
      · rw [allocIter, halloc]
        exact h1
      · intro e
        rw [h2 e]
        constructor <;> (rintro ⟨a, b⟩; exact ⟨a, by omega⟩)

/-- The §8 exhaustion scenario: 254 allocations from the empty state
all succeed, and the 255th call fails with `PoolExhausted`. -/
theorem allocIter_exhausts :
    ∃ st : EidState, allocIter 254 emptyEidState = .ok st ∧
      ∀ pa : Nat, allocate_eid st pa = .error .PoolExhausted := by
  obtain ⟨st, h1, h2⟩ := allocIter_progress 254 0 (by omega) emptyEidState
    (by intro e; simp [usedEids, emptyEidState]; omega)
  refine ⟨st, h1, ?_⟩
  intro pa
  have hnone : lowestFree (usedEids st) = none := by
    unfold lowestFree
    exact lowestFreeFrom_none (usedEids st) 254 1
      (fun j hj1 hj2 => (h2 j).mpr ⟨hj1, by omega⟩)
  unfold allocate_eid
  rw [hnone]

/-- Releasing an EID removes it from the used set: it becomes eligible
for reuse. -/
theorem release_eid_frees (st : EidState) (e : Nat) :
    e ∉ usedEids (release_eid st e) := by
  intro hmem
  simp only [usedEids, release_eid, List.mem_map] at hmem
  obtain ⟨q, hq, hqe⟩ := hmem
  rw [List.mem_filter] at hq
  have hbne := hq.2
  rw [hqe] at hbne
  simp at hbne

/-- Releasing an EID twice is the same as releasing it once. -/
theorem release_eid_idem (st : EidState) (e : Nat) :
    release_eid (release_eid st e) e = release_eid st e := by
  simp [release_eid, List.filter_filter]

/-- C9: `allocate_eid` always returns the lowest assignable EID
(1..254) not currently in use and never hands out an EID that is live
for any physical address; from a full pool, 254 allocations succeed and
the 255th fails with `PoolExhausted`; `release_eid` makes the released
EID eligible for reuse and is idempotent. -/
theorem eid_pool_management :
    (∀ (st : EidState) (pa e : Nat) (st' : EidState),
      allocate_eid st pa = .ok (e, st') →
      e ∉ usedEids st ∧ 1 ≤ e ∧ e ≤ 254 ∧
      (∀ e' : Nat, 1 ≤ e' → e' ≤ 254 → e' ∉ usedEids st → e ≤ e') ∧
      (∀ pa' : Nat, (e, pa') ∉ st.table)) ∧
    (∃ st : EidState, allocIter 254 emptyEidState = .ok st ∧
      ∀ pa : Nat, allocate_eid st pa = .error .PoolExhausted) ∧
    (∀ (st : EidState) (e : Nat), e ∉ usedEids (release_eid st e)) ∧
    (∀ (st : EidState) (e : Nat),
      release_eid (release_eid st e) e = release_eid st e) := by
  refine ⟨?_, allocIter_exhausts, release_eid_frees, release_eid_idem⟩
  intro st pa e st' h
  obtain ⟨h1, h2, h3, h4, _⟩ := allocate_eid_ok st pa e st' h
  refine ⟨h1, h2, h3, h4, ?_⟩
  intro pa' hmem
  exact h1 (List.mem_map.mpr ⟨(e, pa'), hmem, rfl⟩)

/-- Witness for C9: the first allocation from the empty pool yields
EID 1, and releasing EID 3 from a singleton table frees it. -/
theorem eid_pool_management_witness :
    (1 ∉ usedEids emptyEidState ∧ 1 ≤ 1 ∧ 1 ≤ 254 ∧
      (∀ e' : Nat, 1 ≤ e' → e' ≤ 254 → e' ∉ usedEids emptyEidState →
        1 ≤ e') ∧
      (∀ pa' : Nat, (1, pa') ∉ emptyEidState.table)) ∧
    3 ∉ usedEids (release_eid ⟨[(3, 7)]⟩ 3) :=
  ⟨eid_pool_management.1 emptyEidState 9 1 ⟨[(1, 9)]⟩ rfl,
    eid_pool_management.2.2.1 ⟨[(3, 7)]⟩ 3⟩

end Mctpd
